import Mathlib

/-!
Verification of the rgb pixel library (src/internal/rgba.rs) against its
specification.  The pixel structs, slice/byte views, `rgb_mut`, the map
operations and `FromIterator` are embedded shallowly as Lean definitions,
and the spec's claims are settled as theorems about those definitions.
-/

namespace Rgb

/-- Modelled from the spec: the 4-channel RGB-order pixel struct `RGBA<T, A>`
(declared in the crate root, outside the file under verification).  Declared
field order is r, g, b, a, and declaration order equals memory order with no
padding (spec section 3, invariants 1-2). -/
structure RGBA (T : Type) (A : Type) where
  r : T
  g : T
  b : T
  a : A
  deriving DecidableEq, Repr

/-- Modelled from the spec: the 4-channel BGR-order pixel struct `BGRA<T, A>`
(declared in `alt`, outside the file under verification).  Declared field
order is b, g, r, a. -/
structure BGRA (T : Type) (A : Type) where
  b : T
  g : T
  r : T
  a : A
  deriving DecidableEq, Repr

/-- Modelled from the spec: the 3-channel RGB-order pixel struct `RGB<T>`,
declared field order r, g, b. -/
structure RGB (T : Type) where
  r : T
  g : T
  b : T
  deriving DecidableEq, Repr

/-- Modelled from the spec: the 3-channel BGR-order pixel struct `BGR<T>`,
declared field order b, g, r. -/
structure BGR (T : Type) where
  b : T
  g : T
  r : T
  deriving DecidableEq, Repr

/-- `RGBA::new(r, g, b, a)` from the source: field assignment in declared
order, homogeneous channel type. -/
def RGBA.new {T : Type} (r g b a : T) : RGBA T T :=
  { r := r, g := g, b := b, a := a }

/-- `ComponentSlice::as_slice` for a single `RGBA<T>`: the source
reinterprets the struct's storage as 4 consecutive `T`s
(`slice::from_raw_parts(self as *const T, 4)`), which by the declared-order
== memory-order invariant is the fields in declared order. -/
def RGBA.as_slice {T : Type} (p : RGBA T T) : List T :=
  [p.r, p.g, p.b, p.a]

/-- `ComponentSlice::as_slice` for a single `BGRA<T>`: the declared field
order of `BGRA` is b, g, r, a. -/
def BGRA.as_slice {T : Type} (p : BGRA T T) : List T :=
  [p.b, p.g, p.r, p.a]

/-- `ComponentSlice::as_slice` for `[RGBA<T>]`: the source reinterprets the
pixel sequence's storage as `len * 4` consecutive `T`s, i.e. pixel 0's
channels first, then pixel 1's, with no interleaving. -/
def RGBA.slice_of_list {T : Type} (ps : List (RGBA T T)) : List T :=
  ps.flatMap RGBA.as_slice

/-- `ComponentSlice::as_slice` for `[BGRA<T>]`. -/
def BGRA.slice_of_list {T : Type} (ps : List (BGRA T T)) : List T :=
  ps.flatMap BGRA.as_slice

/-- Little-endian byte image of a channel value stored in `w` bytes; models
the platform's native in-memory representation of a fixed-size scalar whose
value is `v`. -/
def leBytes (w v : Nat) : List Nat :=
  (List.range w).map (fun i => v / 256 ^ i % 256)

/-- Modelled from the spec: `ComponentBytes::as_bytes` for `[RGBA<T>]`
(the default method body lives in `internal/pixel.rs`, outside the file
under verification).  Per the spec, it exposes the same storage as the
component slice, as raw bytes; here for a single-byte channel type, so each
channel value `v` contributes its one byte `v % 256`. -/
def RGBA.as_bytes (ps : List (RGBA Nat Nat)) : List Nat :=
  (RGBA.slice_of_list ps).flatMap (leBytes 1)

/-- Modelled from the spec: `ComponentBytes::as_bytes` for `[BGRA<T>]`,
single-byte channel type. -/
def BGRA.as_bytes (ps : List (BGRA Nat Nat)) : List Nat :=
  (BGRA.slice_of_list ps).flatMap (leBytes 1)

/-- `ComponentMap::map` for `RGBA<T>` from the source:
`$RGBA { r: f(self.r), g: f(self.g), b: f(self.b), a: f(self.a) }`. -/
def RGBA.map {T B : Type} (f : T → B) (p : RGBA T T) : RGBA B B :=
  { r := f p.r, g := f p.g, b := f p.b, a := f p.a }

/-- `ComponentMap::map` for `BGRA<T>`: the macro emits the same struct
literal text, so the fields are filled the same way. -/
def BGRA.map {T B : Type} (f : T → B) (p : BGRA T T) : BGRA B B :=
  { r := f p.r, g := f p.g, b := f p.b, a := f p.a }

/-- Stateful rendering of `ComponentMap::map` for `RGBA<T>`: a Rust struct
literal evaluates its field initializers in the order they are written, so
the closure `f` is called on r, then g, then b, then a.  The state `S`
models the closure's captured mutable environment (`FnMut`). -/
def RGBA.mapS {S T B : Type} (f : S → T → S × B) (s0 : S) (p : RGBA T T) :
    S × RGBA B B :=
  let fr := f s0 p.r
  let fg := f fr.1 p.g
  let fb := f fg.1 p.b
  let fa := f fb.1 p.a
  (fa.1, { r := fr.2, g := fg.2, b := fb.2, a := fa.2 })

/-- Stateful rendering of `ComponentMap::map` for `BGRA<T>`: the macro
writes the struct literal with initializers in the textual order
r, g, b, a even though `BGRA`'s declared field order is b, g, r, a, so `f`
is still called on r, then g, then b, then a. -/
def BGRA.mapS {S T B : Type} (f : S → T → S × B) (s0 : S) (p : BGRA T T) :
    S × BGRA B B :=
  let fr := f s0 p.r
  let fg := f fr.1 p.g
  let fb := f fg.1 p.b
  let fa := f fb.1 p.a
  (fa.1, { r := fr.2, g := fg.2, b := fb.2, a := fa.2 })

/-- `rgb()` for `RGBA<T, A>` from the source: copies the three color
channels out into a fresh `RGB<T>`, dropping alpha. -/
def RGBA.rgb {T A : Type} (p : RGBA T A) : RGB T :=
  { r := p.r, g := p.g, b := p.b }

/-- `rgb()` for `BGRA<T, A>`. -/
def BGRA.rgb {T A : Type} (p : BGRA T A) : BGR T :=
  { b := p.b, g := p.g, r := p.r }

/-- Modelled from the spec: `ComponentMap::map` for the 3-channel `RGB<T>`
(implemented in `internal/rgb.rs`, outside the file under verification):
channel-wise application of `f`. -/
def RGB.map {T B : Type} (f : T → B) (q : RGB T) : RGB B :=
  { r := f q.r, g := f q.g, b := f q.b }

/-- Modelled from the spec: `ComponentMap::map` for `BGR<T>`. -/
def BGR.map {T B : Type} (f : T → B) (q : BGR T) : BGR B :=
  { b := f q.b, g := f q.g, r := f q.r }

/-- Modelled from the spec: `new_alpha` for `RGB<T>` (implemented outside
the file under verification): attaches an alpha value to the three color
channels, producing a 4-channel value. -/
def RGB.new_alpha {T A : Type} (q : RGB T) (a : A) : RGBA T A :=
  { r := q.r, g := q.g, b := q.b, a := a }

/-- Modelled from the spec: `new_alpha` for `BGR<T>`. -/
def BGR.new_alpha {T A : Type} (q : BGR T) (a : A) : BGRA T A :=
  { b := q.b, g := q.g, r := q.r, a := a }

/-- `map_rgb` for `RGBA<T, A>` from the source:
`self.rgb().map(f).new_alpha(self.a.clone().into())`.  The `From<A>`
conversion used by `.into()` is passed explicitly as `conv`. -/
def RGBA.map_rgb {T A U B2 : Type} (conv : A → B2) (f : T → U)
    (p : RGBA T A) : RGBA U B2 :=
  (RGB.map f p.rgb).new_alpha (conv p.a)

/-- `map_rgb` for `BGRA<T, A>`. -/
def BGRA.map_rgb {T A U B2 : Type} (conv : A → B2) (f : T → U)
    (p : BGRA T A) : BGRA U B2 :=
  (BGR.map f p.rgb).new_alpha (conv p.a)

/-- `FromIterator::from_iter` for `RGBA<T>` from the source: calls
`iter.next().unwrap()` four times, assigning to r, g, b, a in that order.
On a list, `next` yields the head; `none` models the panic of `unwrap`
on an exhausted iterator.  Elements after the fourth are never requested. -/
def RGBA.from_iter {T : Type} (l : List T) : Option (RGBA T T) :=
  match l with
  | r :: g :: b :: a :: _ => some { r := r, g := g, b := b, a := a }
  | _ => none

/-- `rgb_mut` for `RGBA<T, A>` from the source: `transmute(self)` to
`&mut RGB<T>`.  The value read through the view is the leading three
declared fields, which for `RGBA` are r, g, b — exactly an `RGB<T>`. -/
def RGBA.rgb_mut {T A : Type} (p : RGBA T A) : RGB T :=
  { r := p.r, g := p.g, b := p.b }

/-- `rgb_mut` for `BGRA<T, A>`: the leading three declared fields are
b, g, r — exactly a `BGR<T>`. -/
def BGRA.rgb_mut {T A : Type} (p : BGRA T A) : BGR T :=
  { b := p.b, g := p.g, r := p.r }

/-- Writing channel slot `i` of the `&mut RGB<T>` view returned by
`RGBA::rgb_mut`: since the view aliases the parent's storage, writing the
view's i-th physical field writes the parent's i-th declared field
(r, g, b for slots 0, 1, 2). -/
def RGBA.rgb_mut_set {T A : Type} (p : RGBA T A) (i : Fin 3) (v : T) :
    RGBA T A :=
  if i.val = 0 then { p with r := v }
  else if i.val = 1 then { p with g := v }
  else { p with b := v }

/-- Writing channel slot `i` of the `&mut BGR<T>` view returned by
`BGRA::rgb_mut`: the parent's leading declared fields are b, g, r for
slots 0, 1, 2. -/
def BGRA.rgb_mut_set {T A : Type} (p : BGRA T A) (i : Fin 3) (v : T) :
    BGRA T A :=
  if i.val = 0 then { p with b := v }
  else if i.val = 1 then { p with g := v }
  else { p with r := v }

/-- Modelled from the spec: the in-memory byte image of an `RGBA` value
whose color channels occupy `s` bytes each and whose alpha occupies `t`
bytes (spec invariant 2: fields in declared order, no inter-field padding,
total size the sum of field sizes). -/
def RGBA.layout (s t : Nat) (p : RGBA Nat Nat) : List Nat :=
  (leBytes s p.r ++ leBytes s p.g ++ leBytes s p.b) ++ leBytes t p.a

/-- Modelled from the spec: the in-memory byte image of a `BGRA` value,
declared field order b, g, r, a. -/
def BGRA.layout (s t : Nat) (p : BGRA Nat Nat) : List Nat :=
  (leBytes s p.b ++ leBytes s p.g ++ leBytes s p.r) ++ leBytes t p.a

/-- Modelled from the spec: the in-memory byte image of an `RGB` value with
`s`-byte channels. -/
def RGB.layout (s : Nat) (q : RGB Nat) : List Nat :=
  leBytes s q.r ++ leBytes s q.g ++ leBytes s q.b

/-- Modelled from the spec: the in-memory byte image of a `BGR` value. -/
def BGR.layout (s : Nat) (q : BGR Nat) : List Nat :=
  leBytes s q.b ++ leBytes s q.g ++ leBytes s q.r

/-- The `rgb_mut` view on an `RGBA` with color-channel byte size `s` and
alpha byte size `t` is a sound 3-channel layout: the leading `3 * s` bytes
of the parent's storage are exactly the byte image of the `RGB` value read
through the view. -/
def rgbMutSound (s t : Nat) : Prop :=
  ∀ p : RGBA Nat Nat, (RGBA.layout s t p).take (3 * s) = RGB.layout s p.rgb_mut

/-- Derived lexicographic `Ord::cmp` for `RGBA<T>`: Rust's derive compares
the fields in declared order r, g, b, a, falling to the next field on
equality. -/
def RGBA.cmp {T : Type} [LinearOrder T] (p q : RGBA T T) : Ordering :=
  (compare p.r q.r).then
    ((compare p.g q.g).then
      ((compare p.b q.b).then (compare p.a q.a)))

/-- Derived lexicographic `Ord::cmp` for `BGRA<T>`: declared order is
b, g, r, a, so blue is compared first. -/
def BGRA.cmp {T : Type} [LinearOrder T] (p q : BGRA T T) : Ordering :=
  (compare p.b q.b).then
    ((compare p.g q.g).then
      ((compare p.r q.r).then (compare p.a q.a)))

theorem leBytes_length (w v : Nat) : (leBytes w v).length = w := by
  simp [leBytes]

theorem bind_leBytes_one_length (l : List Nat) :
    (l.flatMap (leBytes 1)).length = l.length := by
  induction l with
  | nil => rfl
  | cons x xs ih =>
    rw [List.flatMap_cons, List.length_append, ih, leBytes_length]
    simp [List.length_cons]
    omega

theorem bind_leBytes_one_of_small (l : List Nat)
    (h : ∀ v ∈ l, v < 256) : l.flatMap (leBytes 1) = l := by
  induction l with
  | nil => rfl
  | cons x xs ih =>
    have hx : x < 256 := h x (List.mem_cons_self x xs)
    have hxs : ∀ v ∈ xs, v < 256 := fun v hv => h v (List.mem_cons_of_mem x hv)
    have hone : leBytes 1 x = [x] := by
      simp [leBytes, List.range_succ, Nat.mod_eq_of_lt hx]
    rw [List.flatMap_cons, ih hxs, hone]
    rfl

theorem rgba_slice_of_list_length {T : Type} (ps : List (RGBA T T)) :
    (RGBA.slice_of_list ps).length = ps.length * 4 := by
  induction ps with
  | nil => rfl
  | cons p ps ih =>
    simp [RGBA.slice_of_list, List.flatMap, RGBA.as_slice] at ih ⊢
    omega

theorem bgra_slice_of_list_length {T : Type} (ps : List (BGRA T T)) :
    (BGRA.slice_of_list ps).length = ps.length * 4 := by
  induction ps with
  | nil => rfl
  | cons p ps ih =>
    simp [BGRA.slice_of_list, List.flatMap, BGRA.as_slice] at ih ⊢
    omega

/-- Wraps a stateful transform `f` so that, in addition to threading the
state of `f`, it records each channel value it is applied to, in order of
application. -/
def traceF {S T B : Type} (f : S → T → S × B) :
    S × List T → T → (S × List T) × B :=
  fun sl t => (((f sl.1 t).1, sl.2 ++ [t]), (f sl.1 t).2)

/-- Claim C1: for a sequence of N 4-channel pixels with single-byte plain
scalar channels, `as_bytes` has length N × 4 × 1 and its content is the
pixels' fields in declared order, pixel 0 first; for the two pixels with
byte channels (1,2,3,4) and (5,6,7,8) in declared field order the result is
exactly [1,2,3,4,5,6,7,8] (see the witness). -/
theorem C1_as_bytes (ps : List (RGBA Nat Nat)) (qs : List (BGRA Nat Nat))
    (hp : ∀ v ∈ RGBA.slice_of_list ps, v < 256)
    (hq : ∀ v ∈ BGRA.slice_of_list qs, v < 256) :
    (RGBA.as_bytes ps).length = ps.length * 4 * 1
    ∧ RGBA.as_bytes ps = RGBA.slice_of_list ps
    ∧ RGBA.slice_of_list ps = ps.flatMap (fun p => [p.r, p.g, p.b, p.a])
    ∧ (BGRA.as_bytes qs).length = qs.length * 4 * 1
    ∧ BGRA.as_bytes qs = BGRA.slice_of_list qs
    ∧ BGRA.slice_of_list qs = qs.flatMap (fun p => [p.b, p.g, p.r, p.a]) := by
  refine ⟨?_, bind_leBytes_one_of_small _ hp, rfl, ?_,
    bind_leBytes_one_of_small _ hq, rfl⟩
  · show ((RGBA.slice_of_list ps).flatMap (leBytes 1)).length = _
    rw [bind_leBytes_one_length, rgba_slice_of_list_length]
    omega
  · show ((BGRA.slice_of_list qs).flatMap (leBytes 1)).length = _
    rw [bind_leBytes_one_length, bgra_slice_of_list_length]
    omega

/-- Witness for C1: the concrete two-pixel sequences of the source's tests,
with byte channels (1,2,3,4) and (5,6,7,8) in declared field order, flatten
to exactly [1,2,3,4,5,6,7,8]. -/
theorem C1_as_bytes_witness :
    RGBA.as_bytes [RGBA.new 1 2 3 4, RGBA.new 5 6 7 8] = [1, 2, 3, 4, 5, 6, 7, 8]
    ∧ BGRA.as_bytes [⟨1, 2, 3, 4⟩, ⟨5, 6, 7, 8⟩] = [1, 2, 3, 4, 5, 6, 7, 8] := by
  have h := C1_as_bytes [RGBA.new 1 2 3 4, RGBA.new 5 6 7 8]
    [⟨1, 2, 3, 4⟩, ⟨5, 6, 7, 8⟩] (by decide) (by decide)
  exact ⟨h.2.1.trans (by rfl), h.2.2.2.2.1.trans (by rfl)⟩

/-- Claim C2: `as_slice` on a single 4-channel value is a flat sequence of
length exactly 4 whose element k is the k-th field in declared order:
(r,g,b,a) for `RGBA` and (b,g,r,a) for `BGRA`. -/
theorem C2_as_slice {T : Type} (p : RGBA T T) (q : BGRA T T) :
    (RGBA.as_slice p).length = 4
    ∧ RGBA.as_slice p = [p.r, p.g, p.b, p.a]
    ∧ (BGRA.as_slice q).length = 4
    ∧ BGRA.as_slice q = [q.b, q.g, q.r, q.a] :=
  ⟨rfl, rfl, rfl, rfl⟩

/-- Claim C3: flattening an `RGBA` value with `as_slice` and rebuilding via
`from_iter` yields the original value. -/
theorem C3_round_trip {T : Type} (p : RGBA T T) :
    RGBA.from_iter (RGBA.as_slice p) = some p :=
  rfl

/-- Claim C4: mutating a color channel through the `rgb_mut` view changes
the corresponding color field of the original 4-channel value (leaving the
other color fields intact), and alpha is unchanged by any mutation
performed through the view, for both `RGBA` and `BGRA`. -/
theorem C4_rgb_mut_parent {T A : Type} (p : RGBA T A) (q : BGRA T A) (v : T) :
    ((p.rgb_mut_set 0 v).r = v ∧ (p.rgb_mut_set 0 v).g = p.g
      ∧ (p.rgb_mut_set 0 v).b = p.b)
    ∧ ((p.rgb_mut_set 1 v).g = v ∧ (p.rgb_mut_set 1 v).r = p.r
      ∧ (p.rgb_mut_set 1 v).b = p.b)
    ∧ ((p.rgb_mut_set 2 v).b = v ∧ (p.rgb_mut_set 2 v).r = p.r
      ∧ (p.rgb_mut_set 2 v).g = p.g)
    ∧ (∀ i : Fin 3, (p.rgb_mut_set i v).a = p.a)
    ∧ ((q.rgb_mut_set 0 v).b = v ∧ (q.rgb_mut_set 0 v).g = q.g
      ∧ (q.rgb_mut_set 0 v).r = q.r)
    ∧ ((q.rgb_mut_set 1 v).g = v ∧ (q.rgb_mut_set 1 v).b = q.b
      ∧ (q.rgb_mut_set 1 v).r = q.r)
    ∧ ((q.rgb_mut_set 2 v).r = v ∧ (q.rgb_mut_set 2 v).b = q.b
      ∧ (q.rgb_mut_set 2 v).g = q.g)
    ∧ (∀ i : Fin 3, (q.rgb_mut_set i v).a = q.a) := by
  refine ⟨⟨rfl, rfl, rfl⟩, ⟨rfl, rfl, rfl⟩, ⟨rfl, rfl, rfl⟩, ?_,
    ⟨rfl, rfl, rfl⟩, ⟨rfl, rfl, rfl⟩, ⟨rfl, rfl, rfl⟩, ?_⟩
  · intro i
    simp only [RGBA.rgb_mut_set]
    split <;> try rfl
    split <;> rfl
  · intro i
    simp only [BGRA.rgb_mut_set]
    split <;> try rfl
    split <;> rfl

/-- Claim C5 (amended): the source's `rgb_mut` impl is
`impl<T, A> $RGBA<T, A>` with no bound relating the color type `T` to the
alpha type `A`, so no size-equality requirement exists or is enforced at
build time; the prefix reinterpretation is nonetheless a sound 3-channel
layout for every alpha size `t`: the leading 3 × s bytes of the 4-channel
value's storage are exactly the byte image of the `RGB`/`BGR` value read
through the view. -/
theorem C5_rgb_mut_layout (s t : Nat) (p : RGBA Nat Nat) (q : BGRA Nat Nat) :
    (RGBA.layout s t p).take (3 * s) = RGB.layout s p.rgb_mut
    ∧ (BGRA.layout s t q).take (3 * s) = BGR.layout s q.rgb_mut := by
  constructor
  · have h3 : (leBytes s p.r ++ leBytes s p.g ++ leBytes s p.b).length = 3 * s := by
      simp [List.length_append, leBytes_length]
      omega
    exact List.take_left' h3
  · have h3 : (leBytes s q.b ++ leBytes s q.g ++ leBytes s q.r).length = 3 * s := by
      simp [List.length_append, leBytes_length]
      omega
    exact List.take_left' h3

/-- Counterexample to C5 as stated: it is not the case that the `rgb_mut`
view is valid only when the color-channel size equals the alpha-channel
size — with 1-byte color channels and a 2-byte alpha the view is still a
sound 3-channel layout, and nothing rejects that instantiation. -/
theorem C5_rgb_mut_cex : ¬ (∀ s t : Nat, rgbMutSound s t → s = t) := by
  intro h
  have h12 : rgbMutSound 1 2 := fun p => rfl
  exact absurd (h 1 2 h12) (by decide)

/-- Claim C6: `map f` is channel-wise for both 4-channel types: each field
of the result, including alpha, is `f` of the source's corresponding field,
and arity and declared field order are preserved (the component slice of
the result is the mapped component slice of the source). -/
theorem C6_map_channelwise {T B : Type} (f : T → B) (p : RGBA T T)
    (q : BGRA T T) :
    ((RGBA.map f p).r = f p.r ∧ (RGBA.map f p).g = f p.g
      ∧ (RGBA.map f p).b = f p.b ∧ (RGBA.map f p).a = f p.a)
    ∧ ((BGRA.map f q).b = f q.b ∧ (BGRA.map f q).g = f q.g
      ∧ (BGRA.map f q).r = f q.r ∧ (BGRA.map f q).a = f q.a)
    ∧ RGBA.as_slice (RGBA.map f p) = (RGBA.as_slice p).map f
    ∧ BGRA.as_slice (BGRA.map f q) = (BGRA.as_slice q).map f :=
  ⟨⟨rfl, rfl, rfl, rfl⟩, ⟨rfl, rfl, rfl, rfl⟩, rfl, rfl⟩

/-- Claim C7: the alpha of `map_rgb(f)` is the separately-specified total
conversion of the source alpha and does not depend on `f`: any two
transforms yield the same alpha, for both `RGBA` and `BGRA`. -/
theorem C7_map_rgb_alpha {T A U B2 : Type} (conv : A → B2) (f1 f2 : T → U)
    (p : RGBA T A) (q : BGRA T A) :
    (RGBA.map_rgb conv f1 p).a = (RGBA.map_rgb conv f2 p).a
    ∧ (RGBA.map_rgb conv f1 p).a = conv p.a
    ∧ (BGRA.map_rgb conv f1 q).a = (BGRA.map_rgb conv f2 q).a
    ∧ (BGRA.map_rgb conv f1 q).a = conv q.a :=
  ⟨rfl, rfl, rfl, rfl⟩

/-- Claim C8: `from_iter` consumes exactly 4 values, assigning them to the
fields in declared order; it fails (returns `none`, modelling the panic) if
and only if the input yields fewer than 4 values, and the result is
determined entirely by the first 4 values. -/
theorem C8_from_iter {T : Type} (l : List T) (r g b a : T) (rest : List T) :
    RGBA.from_iter (r :: g :: b :: a :: rest) = some (RGBA.new r g b a)
    ∧ (RGBA.from_iter l = none ↔ l.length < 4)
    ∧ RGBA.from_iter l = RGBA.from_iter (l.take 4) := by
  refine ⟨rfl, ?_, ?_⟩
  · match l with
    | [] => simp [RGBA.from_iter]
    | [x] => simp [RGBA.from_iter]
    | [x, y] => simp [RGBA.from_iter]
    | [x, y, z] => simp [RGBA.from_iter]
    | x :: y :: z :: w :: rest2 => simp [RGBA.from_iter]
  · match l with
    | [] => rfl
    | [x] => rfl
    | [x, y] => rfl
    | [x, y, z] => rfl
    | x :: y :: z :: w :: rest2 => rfl

/-- Witness for C8: at concrete inputs, a 5-element sequence builds the
pixel from its first four values, and a 3-element sequence fails. -/
theorem C8_from_iter_witness :
    RGBA.from_iter [1, 2, 3, 4, 99] = some (RGBA.new 1 2 3 4)
    ∧ RGBA.from_iter ([1, 2, 3] : List Nat) = none := by
  have h := C8_from_iter ([1, 2, 3] : List Nat) 1 2 3 4 [99]
  exact ⟨h.1, h.2.1.mpr (by decide)⟩

/-- Claim C9: equality of 4-channel values is structural, and the derived
ordering is lexicographic over the fields in declared order (r,g,b,a for
`RGBA`, b,g,r,a for `BGRA`) with sign-aware channel comparison; in
particular (1,2,3,1000) is not less than (0,0,0,0) over `Int`. -/
theorem C9_ord_lex {T : Type} [LinearOrder T] (p q : RGBA T T)
    (p2 q2 : BGRA T T) :
    (RGBA.cmp p q = Ordering.lt ↔
      (p.r < q.r ∨ (p.r = q.r ∧ (p.g < q.g ∨ (p.g = q.g ∧
        (p.b < q.b ∨ (p.b = q.b ∧ p.a < q.a)))))))
    ∧ (p = q ↔ p.r = q.r ∧ p.g = q.g ∧ p.b = q.b ∧ p.a = q.a)
    ∧ (BGRA.cmp p2 q2 = Ordering.lt ↔
      (p2.b < q2.b ∨ (p2.b = q2.b ∧ (p2.g < q2.g ∨ (p2.g = q2.g ∧
        (p2.r < q2.r ∨ (p2.r = q2.r ∧ p2.a < q2.a)))))))
    ∧ (p2 = q2 ↔ p2.b = q2.b ∧ p2.g = q2.g ∧ p2.r = q2.r ∧ p2.a = q2.a)
    ∧ RGBA.cmp (RGBA.new (1 : Int) 2 3 1000) (RGBA.new 0 0 0 0) ≠ Ordering.lt := by
  refine ⟨?_, ?_, ?_, ?_, ?_⟩
  · simp [RGBA.cmp, Ordering.then_eq_lt, compare_lt_iff_lt, compare_eq_iff_eq]
  · cases p
    cases q
    simp only [RGBA.mk.injEq]
  · simp [BGRA.cmp, Ordering.then_eq_lt, compare_lt_iff_lt, compare_eq_iff_eq]
  · cases p2
    cases q2
    simp only [BGRA.mk.injEq]
  · simp [RGBA.cmp, RGBA.new, Ordering.then_eq_lt, compare_lt_iff_lt,
      compare_eq_iff_eq]

/-- Witness for C9: the test's concrete comparisons — over `Int`,
(1,2,3,1000) is not less than (0,0,0,0) for `RGBA`, and the `BGRA` value
with b = -3 is less than all-zero because blue is compared first. -/
theorem C9_ord_lex_witness :
    RGBA.cmp (RGBA.new (1 : Int) 2 3 1000) (RGBA.new 0 0 0 0) ≠ Ordering.lt
    ∧ BGRA.cmp (⟨-3, -2, -1, -1000⟩ : BGRA Int Int) ⟨0, 0, 0, 0⟩ = Ordering.lt := by
  have h := C9_ord_lex (RGBA.new (1 : Int) 2 3 1000) (RGBA.new 0 0 0 0)
    (⟨-3, -2, -1, -1000⟩ : BGRA Int Int) ⟨0, 0, 0, 0⟩
  refine ⟨h.2.2.2.2, h.2.2.1.mpr (Or.inl (by norm_num))⟩

/-- Claim C10: `map f` calls the (possibly stateful) transform on the
channels in the fixed order r, g, b, a for both `RGBA` and `BGRA` — the
struct-literal initializers are evaluated in written order — which for
`BGRA` is not its declared field order (b,g,r,a): the recorded application
order differs from the component slice at a concrete pixel. -/
theorem C10_map_order {S T B : Type} (f : S → T → S × B) (s : S)
    (p : RGBA T T) (q : BGRA T T) :
    (RGBA.mapS (traceF f) (s, []) p).1.2 = [p.r, p.g, p.b, p.a]
    ∧ (BGRA.mapS (traceF f) (s, []) q).1.2 = [q.r, q.g, q.b, q.a]
    ∧ BGRA.as_slice q = [q.b, q.g, q.r, q.a]
    ∧ (BGRA.mapS (traceF (fun (u : Unit) (t : Nat) => (u, t))) ((), [])
        (⟨1, 2, 3, 4⟩ : BGRA Nat Nat)).1.2
      ≠ BGRA.as_slice (⟨1, 2, 3, 4⟩ : BGRA Nat Nat) := by
  refine ⟨?_, ?_, rfl, by decide⟩
  · simp [RGBA.mapS, traceF]
  · simp [BGRA.mapS, traceF]


end Rgb
